import Mathlib

/-!
Shallow embedding of the ITCompiler lexical analyzer and symbol table
(`src/ITCompiler.py`): the token taxonomy (`CustomLanguage.KEYWORDS`), the
symbol-table persistence (`SymbolTable.save`, `SymbolTable.load`,
`SymbolTable.clear`) and the scanner (`LexicalAnalyzer.tokenize_line`,
`LexicalAnalyzer.analyze`).  A line is a list of characters; the per-line
while loop of `tokenize_line` is embedded as a fuel-indexed recursion
`tokenizeLineF` that returns `none` on fuel exhaustion, and the total
function `tokenize_line` runs it at fuel equal to the line length.
Sufficiency of that fuel is proved below (every loop iteration consumes at
least one character), so `tokenize_line` is the semantics of the loop.
The Python character predicates are modelled on the code-point range the
language uses: the spec restricts identifiers to ASCII letters, digits and
underscore, and all claims are over that fragment.
-/

/-- Python str.isspace on the ASCII / Latin-1 range. -/
def pyIsSpace (c : Char) : Bool :=
  c = ' ' || c = '\t' || c = '\n' || c = '\x0b' || c = '\x0c' || c = '\r' ||
  c = '\x1c' || c = '\x1d' || c = '\x1e' || c = '\x1f' || c = '\x85'

/-- Python str.isalpha on the ASCII fragment. -/
def pyIsAlpha (c : Char) : Bool :=
  ('a' ≤ c && c ≤ 'z') || ('A' ≤ c && c ≤ 'Z')

/-- Python str.isdigit on the ASCII fragment. -/
def pyIsDigit (c : Char) : Bool :=
  '0' ≤ c && c ≤ '9'

/-- Python str.isalnum on the ASCII fragment. -/
def pyIsAlnum (c : Char) : Bool :=
  pyIsAlpha c || pyIsDigit c

/-- Guard of the identifier branch: `char.isalpha() or char == '_'`. -/
def isIdentStart (c : Char) : Bool := pyIsAlpha c || c = '_'

/-- Continuation of an identifier run: `line[i].isalnum() or line[i] == '_'`. -/
def isIdentChar (c : Char) : Bool := pyIsAlnum c || c = '_'

/-- `CustomLanguage.KEYWORDS` from the source, in order. -/
def CustomLanguage.KEYWORDS : List String :=
  ["if", "else", "while", "for", "function", "return",
   "int", "float", "string", "bool", "true", "false",
   "print", "input", "and", "or", "not"]

/-- One recorded token occurrence: the dict
`{"type": ..., "value": ..., "line": ...}` appended by `add_symbol`. -/
structure SymbolEntry where
  type : String
  value : String
  line : Nat
  deriving DecidableEq, Repr

/-- The `operators` list from `tokenize_line`. -/
def operators : List Char :=
  ['+', '-', '*', '/', '=', '!', '<', '>', '&', '|',
   '(', ')', '\x7b', '\x7d', '[', ']', ';', ',']

/-- The two-character operator list from `tokenize_line`. -/
def twoCharOps : List String :=
  ["==", "!=", "<=", ">=", "&&", "||"]

/-- The identifier branch chooses the type by exact membership in
`CustomLanguage.KEYWORDS`. -/
def identKind (s : String) : String :=
  if CustomLanguage.KEYWORDS.contains s then "PALABRA_RESERVADA" else "IDENTIFICADOR"

/-- The number branch chooses the type by the has_decimal flag. -/
def numKind (hasDec : Bool) : String :=
  if hasDec then "NUMERO_DECIMAL" else "NUMERO_ENTERO"

/-- Error message of the unterminated-string branch. -/
def unterminatedMsg (ln : Nat) : String :=
  "Error léxico en línea " ++ toString ln ++ ": String no cerrado"

/-- Error message of the multiple-decimal-points branch. -/
def multiDotMsg (ln : Nat) : String :=
  "Error léxico en línea " ++ toString ln ++ ": Número con múltiples puntos decimales"

/-- Error message of the unrecognized-character branch; the character is
quoted between two apostrophes (code point 39). -/
def unrecognizedMsg (ln : Nat) (c : Char) : String :=
  "Error léxico en línea " ++ toString ln ++ ": Carácter no reconocido " ++
    String.mk ['\x27', c, '\x27']

/-- Result of the inner number-consuming while loop of `tokenize_line`:
the consumed run, the remaining characters, the final has_decimal flag and
whether the multiple-decimal-points error fired (break at a second dot,
which is left unconsumed in `rest`). -/
structure NumScan where
  run : List Char
  rest : List Char
  hasDec : Bool
  err : Bool
  deriving Repr

/-- The inner while loop
`while i < n and (line[i].isdigit() or line[i] == '.')` with its
has_decimal bookkeeping and the break on a second dot. -/
def numRun : List Char → Bool → NumScan
  | [], hd => ⟨[], [], hd, false⟩
  | c :: cs, hd =>
    if pyIsDigit c then
      ⟨c :: (numRun cs hd).run, (numRun cs hd).rest, (numRun cs hd).hasDec, (numRun cs hd).err⟩
    else if c = '.' then
      if hd then ⟨[], c :: cs, hd, true⟩
      else ⟨c :: (numRun cs true).run, (numRun cs true).rest, (numRun cs true).hasDec,
            (numRun cs true).err⟩
    else ⟨[], c :: cs, hd, false⟩

/-- Fuel-indexed embedding of the while loop of
`LexicalAnalyzer.tokenize_line`.  Each constructor case matches one branch
of the Python loop body, in source order: whitespace, identifier/keyword,
number, string, comment, operator, unrecognized character.  `none` means
the fuel ran out before the loop exited. -/
def tokenizeLineF (ln : Nat) : Nat → List Char → Option (List SymbolEntry × List String)
  | _, [] => some ([], [])
  | 0, _ :: _ => none
  | fuel + 1, c :: cs =>
    if pyIsSpace c then
      tokenizeLineF ln fuel cs
    else if isIdentStart c then
      (tokenizeLineF ln fuel (cs.dropWhile isIdentChar)).map fun r =>
        (⟨identKind (String.mk (c :: cs.takeWhile isIdentChar)),
          String.mk (c :: cs.takeWhile isIdentChar), ln⟩ :: r.1, r.2)
    else if pyIsDigit c then
      (tokenizeLineF ln fuel (numRun cs false).rest).map fun r =>
        (⟨numKind (numRun cs false).hasDec, String.mk (c :: (numRun cs false).run), ln⟩ :: r.1,
         (if (numRun cs false).err then [multiDotMsg ln] else []) ++ r.2)
    else if c = '"' then
      if (cs.dropWhile (fun x => x ≠ '"')).isEmpty then
        some ([], [unterminatedMsg ln])
      else
        (tokenizeLineF ln fuel (cs.dropWhile (fun x => x ≠ '"')).tail).map fun r =>
          (⟨"STRING", String.mk ('"' :: (cs.takeWhile (fun x => x ≠ '"') ++ ['"'])), ln⟩ :: r.1,
           r.2)
    else if c = '/' ∧ cs.head? = some '/' then
      some ([], [])
    else if operators.contains c then
      match cs with
      | d :: rest =>
        if twoCharOps.contains (String.mk [c, d]) then
          (tokenizeLineF ln fuel rest).map fun r =>
            (⟨"OPERADOR", String.mk [c, d], ln⟩ :: r.1, r.2)
        else
          (tokenizeLineF ln fuel cs).map fun r =>
            (⟨"OPERADOR", String.mk [c], ln⟩ :: r.1, r.2)
      | [] =>
        (tokenizeLineF ln fuel ([] : List Char)).map fun r =>
          (⟨"OPERADOR", String.mk [c], ln⟩ :: r.1, r.2)
    else
      (tokenizeLineF ln fuel cs).map fun r =>
        (r.1, unrecognizedMsg ln c :: r.2)

/-- `LexicalAnalyzer.tokenize_line`: the loop run at fuel equal to the line
length, which is proved sufficient below. -/
def tokenize_line (ln : Nat) (l : List Char) : List SymbolEntry × List String :=
  (tokenizeLineF ln l.length l).getD ([], [])

/-- `code.split("\n")`: always at least one (possibly empty) line. -/
def splitOnNewline : List Char → List (List Char)
  | [] => [[]]
  | c :: cs =>
    if c = '\n' then [] :: splitOnNewline cs
    else (c :: (splitOnNewline cs).headD []) :: (splitOnNewline cs).tail

/-- The `for line_num, line in enumerate(lines, 1)` loop of `analyze`:
symbols and errors of each line, concatenated in order. -/
def analyzeLines : Nat → List (List Char) → List SymbolEntry × List String
  | _, [] => ([], [])
  | ln, l :: ls =>
    ((tokenize_line ln l).1 ++ (analyzeLines (ln + 1) ls).1,
     (tokenize_line ln l).2 ++ (analyzeLines (ln + 1) ls).2)

/-- `LexicalAnalyzer.analyze`: clears the table and error list (so the
result is built from scratch), splits on newline and scans each line with
1-based line numbers.  The pair is (symbol-table entries, errors). -/
def analyze (code : String) : List SymbolEntry × List String :=
  analyzeLines 1 (splitOnNewline code.data)

/-- Fuel-indexed count of recognized tokens: mirrors `tokenizeLineF` branch
by branch, adding one for each branch that emits a symbol-table entry and
zero for whitespace, comments, unterminated strings and unrecognized
characters. -/
def recognizedLineF : Nat → List Char → Option Nat
  | _, [] => some 0
  | 0, _ :: _ => none
  | fuel + 1, c :: cs =>
    if pyIsSpace c then
      recognizedLineF fuel cs
    else if isIdentStart c then
      (recognizedLineF fuel (cs.dropWhile isIdentChar)).map (· + 1)
    else if pyIsDigit c then
      (recognizedLineF fuel (numRun cs false).rest).map (· + 1)
    else if c = '"' then
      if (cs.dropWhile (fun x => x ≠ '"')).isEmpty then some 0
      else (recognizedLineF fuel (cs.dropWhile (fun x => x ≠ '"')).tail).map (· + 1)
    else if c = '/' ∧ cs.head? = some '/' then
      some 0
    else if operators.contains c then
      match cs with
      | d :: rest =>
        if twoCharOps.contains (String.mk [c, d]) then
          (recognizedLineF fuel rest).map (· + 1)
        else
          (recognizedLineF fuel cs).map (· + 1)
      | [] => (recognizedLineF fuel ([] : List Char)).map (· + 1)
    else
      recognizedLineF fuel cs

/-- Recognized tokens of one line. -/
def recognizedLine (l : List Char) : Nat :=
  (recognizedLineF l.length l).getD 0

/-- Recognized non-whitespace, non-comment tokens of a whole source text. -/
def recognizedCount (code : String) : Nat :=
  ((splitOnNewline code.data).map recognizedLine).sum

/-- Python str.strip: drop whitespace from both ends of a line. -/
def pyStrip (l : List Char) : List Char :=
  ((l.dropWhile pyIsSpace).reverse.dropWhile pyIsSpace).reverse

/-- `SymbolTable.save`: the file content as a list of lines, three header
lines followed by one tab-separated row per entry. -/
def SymbolTable.save (syms : List SymbolEntry) : List String :=
  "=== TABLA DE SIMBOLOS ===" ::
  "Formato: Tipo | Valor | Linea" ::
  "---------------------------" ::
  syms.map fun s => s.type ++ "\t" ++ s.value ++ "\t" ++ toString s.line

/-- `SymbolTable.load`: skip the first 8 lines, strip each remaining line,
split on tab and keep exactly the rows with three fields.  The Python
`int(parts[2])` is assumed to succeed (it always does on rows written by
`save`); a non-numeric third field is read as 0 here where Python would
raise. -/
def SymbolTable.load (lines : List String) : List SymbolEntry :=
  (lines.drop 8).filterMap fun line =>
    match (String.mk (pyStrip line.data)).splitOn "\t" with
    | [t, v, l] => some ⟨t, v, l.toNat?.getD 0⟩
    | _ => none

/-- `SymbolTable.clear`: `self.symbols = []`. -/
def SymbolTable.clear (_ : List SymbolEntry) : List SymbolEntry := []

theorem numRun_rest_le (l : List Char) : ∀ hd, (numRun l hd).rest.length ≤ l.length := by
  induction l with
  | nil => intro hd; simp [numRun]
  | cons c cs ih =>
    intro hd
    simp only [numRun]
    split_ifs with h1 h2 h3
    · exact (ih hd).trans (Nat.le_succ _)
    · simp
    · exact (ih true).trans (Nat.le_succ _)
    · simp

theorem dropWhile_length_le (p : Char → Bool) : ∀ l : List Char, (l.dropWhile p).length ≤ l.length := by
  intro l
  induction l with
  | nil => simp
  | cons c cs ih =>
    by_cases h : p c
    · rw [List.dropWhile_cons_of_pos h]
      exact ih.trans (Nat.le_succ _)
    · rw [List.dropWhile_cons_of_neg h]

theorem tail_length_le : ∀ l : List Char, l.tail.length ≤ l.length := by
  intro l; cases l <;> simp

theorem tokenizeLineF_isSome :
    ∀ fuel (l : List Char) (ln : Nat), l.length ≤ fuel →
      (tokenizeLineF ln fuel l).isSome = true := by
  intro fuel
  induction fuel with
  | zero =>
    intro l ln h
    cases l with
    | nil => simp [tokenizeLineF]
    | cons c cs => simp at h
  | succ n ih =>
    intro l ln h
    cases l with
    | nil => simp [tokenizeLineF]
    | cons c cs =>
      have hcs : cs.length ≤ n := by simpa using h
      have htail : (cs.dropWhile (fun x => x ≠ '"')).tail.length ≤ n :=
        ((tail_length_le _).trans (dropWhile_length_le _ cs)).trans hcs
      simp only [tokenizeLineF]
      split_ifs <;> (try simp only [Option.isSome_map']) <;>
        first
          | rfl
          | exact ih cs ln hcs
          | exact ih _ ln ((dropWhile_length_le _ cs).trans hcs)
          | exact ih _ ln ((numRun_rest_le cs false).trans hcs)
          | exact ih _ ln htail
          | (cases cs with
             | nil => rfl
             | cons d rest =>
               have hrest : rest.length ≤ n := by simp at hcs; omega
               dsimp only
               split_ifs <;> (try simp only [Option.isSome_map']) <;>
                 first
                   | exact ih rest ln hrest
                   | exact ih (d :: rest) ln hcs)

theorem map_mono_helper {α β : Type} (f : α → β) {o o' : Option α} {r : β}
    (hstep : ∀ t, o = some t → o' = some t) (h : o.map f = some r) : o'.map f = some r := by
  cases ho : o with
  | none => rw [ho] at h; simp at h
  | some t =>
    rw [hstep t ho]
    rw [ho] at h
    exact h

theorem tokenizeLineF_mono :
    ∀ fuel fuel' (l : List Char) (ln : Nat) (r : List SymbolEntry × List String), fuel ≤ fuel' →
      tokenizeLineF ln fuel l = some r → tokenizeLineF ln fuel' l = some r := by
  intro fuel
  induction fuel with
  | zero =>
    intro fuel' l ln r hle h
    cases l with
    | nil => cases fuel' <;> simpa [tokenizeLineF] using h
    | cons c cs => simp [tokenizeLineF] at h
  | succ n ih =>
    intro fuel' l ln r hle h
    cases l with
    | nil => cases fuel' <;> simpa [tokenizeLineF] using h
    | cons c cs =>
      obtain ⟨m, rfl⟩ : ∃ m, fuel' = m + 1 := ⟨fuel' - 1, by omega⟩
      have hm : n ≤ m := by omega
      simp only [tokenizeLineF] at h ⊢
      split_ifs at h ⊢ <;>
        first
          | exact h
          | exact ih m cs ln r hm h
          | exact map_mono_helper _ (fun t ht => ih m _ ln t hm ht) h
          | (cases cs with
             | nil => exact map_mono_helper _ (fun t ht => ht) h
             | cons d rest =>
               dsimp only at h ⊢
               split_ifs at h ⊢ <;>
                 first
                   | exact map_mono_helper _ (fun t ht => ih m rest ln t hm ht) h
                   | exact map_mono_helper _ (fun t ht => ih m (d :: rest) ln t hm ht) h)

theorem tokenizeLineF_run (ln : Nat) (l : List Char) (fuel : Nat) (hf : l.length ≤ fuel) :
    tokenizeLineF ln fuel l = some (tokenize_line ln l) := by
  obtain ⟨r, hr⟩ := Option.isSome_iff_exists.mp (tokenizeLineF_isSome l.length l ln (le_refl _))
  have hval : tokenize_line ln l = r := by simp [tokenize_line, hr]
  rw [hval]
  exact tokenizeLineF_mono l.length fuel l ln r hf hr

theorem map_fun_ext {α β : Type} {f g : α → β} (h : ∀ a, f a = g a) (o : Option α) :
    o.map f = o.map g := by
  cases o <;> simp [h]

theorem tokenizeLineF_length :
    ∀ fuel (l : List Char) (ln : Nat),
      (tokenizeLineF ln fuel l).map (fun r => r.1.length) = recognizedLineF fuel l := by
  intro fuel
  induction fuel with
  | zero => intro l ln; cases l <;> simp [tokenizeLineF, recognizedLineF]
  | succ n ih =>
    intro l ln
    cases l with
    | nil => simp [tokenizeLineF, recognizedLineF]
    | cons c cs =>
      simp only [tokenizeLineF, recognizedLineF]
      cases cs with
      | nil =>
        dsimp only
        split_ifs <;>
          first
            | rfl
            | exact ih _ ln
            | (rw [← ih _ ln]; simp only [Option.map_map]
               exact map_fun_ext (fun r => by simp [Function.comp]) _)
      | cons d rest =>
        dsimp only
        split_ifs <;>
          first
            | rfl
            | exact ih _ ln
            | (rw [← ih _ ln]; simp only [Option.map_map]
               exact map_fun_ext (fun r => by simp [Function.comp]) _)

theorem isIdentStart_not_space {c : Char} (h : isIdentStart c = true) : pyIsSpace c = false := by
  cases hs : pyIsSpace c with
  | false => rfl
  | true =>
    exfalso
    simp only [pyIsSpace, Bool.or_eq_true, decide_eq_true_eq] at hs
    rcases hs with
      ((((((((((rfl | rfl) | rfl) | rfl) | rfl) | rfl) | rfl) | rfl) | rfl) | rfl) | rfl) <;>
      exact absurd h (by decide)

theorem contains_mem {c : Char} {l : List Char} (h : l.contains c = true) : c ∈ l := by
  simpa using h

theorem op_facts {c : Char} (h : operators.contains c = true) :
    pyIsSpace c = false ∧ isIdentStart c = false ∧ pyIsDigit c = false ∧ c ≠ '"' := by
  have hm : c ∈ operators := contains_mem h
  simp only [operators, List.mem_cons, List.not_mem_nil, or_false] at hm
  rcases hm with rfl | rfl | rfl | rfl | rfl | rfl | rfl | rfl | rfl | rfl | rfl | rfl | rfl |
    rfl | rfl | rfl | rfl | rfl <;> exact ⟨by decide, by decide, by decide, by decide⟩

theorem head_dropWhile_false (p : Char → Bool) :
    ∀ (l : List Char) d, (l.dropWhile p).head? = some d → p d = false := by
  intro l
  induction l with
  | nil => intro d h; simp at h
  | cons c cs ih =>
    intro d h
    by_cases hc : p c
    · rw [List.dropWhile_cons_of_pos hc] at h
      exact ih d h
    · rw [List.dropWhile_cons_of_neg hc] at h
      obtain rfl : c = d := by simpa using h
      simpa using hc

theorem tokenize_line_ident (ln : Nat) (c : Char) (cs : List Char) (h : isIdentStart c = true) :
    tokenize_line ln (c :: cs) =
      (⟨identKind (String.mk (c :: cs.takeWhile isIdentChar)),
        String.mk (c :: cs.takeWhile isIdentChar), ln⟩
          :: (tokenize_line ln (cs.dropWhile isIdentChar)).1,
       (tokenize_line ln (cs.dropWhile isIdentChar)).2) := by
  have hs := isIdentStart_not_space h
  have hrun := tokenizeLineF_run ln (cs.dropWhile isIdentChar) cs.length
    (dropWhile_length_le _ cs)
  simp [tokenize_line, tokenizeLineF, hs, h, hrun]

theorem isIdentStart_isIdentChar {c : Char} (h : isIdentStart c = true) :
    isIdentChar c = true := by
  simp only [isIdentStart, Bool.or_eq_true] at h
  simp only [isIdentChar, pyIsAlnum, Bool.or_eq_true]
  rcases h with h | h
  · exact Or.inl (Or.inl h)
  · exact Or.inr h

theorem takeWhile_all (p : Char → Bool) : ∀ l : List Char, (l.takeWhile p).all p = true := by
  intro l
  induction l with
  | nil => rfl
  | cons c cs ih =>
    by_cases h : p c
    · rw [List.takeWhile_cons_of_pos h]
      simp [h, ih]
    · rw [List.takeWhile_cons_of_neg h]
      rfl

theorem contains_mem_str {s : String} {l : List String} (h : l.contains s = true) : s ∈ l := by
  simpa using h

theorem tokenize_line_unterminated (ln : Nat) (cs : List Char) (h : '"' ∉ cs) :
    tokenize_line ln ('"' :: cs) = ([], [unterminatedMsg ln]) := by
  have hforall : ∀ x ∈ cs, ¬x = '"' := fun x hx heq => h (heq ▸ hx)
  simp [tokenize_line, tokenizeLineF, pyIsSpace, isIdentStart, pyIsAlpha, pyIsDigit]
  rw [if_pos hforall]
  rfl

theorem tokenize_line_op2 (ln : Nat) (c d : Char) (cs : List Char)
    (hop : operators.contains c = true)
    (h2 : twoCharOps.contains (String.mk [c, d]) = true) :
    tokenize_line ln (c :: d :: cs) =
      (⟨"OPERADOR", String.mk [c, d], ln⟩ :: (tokenize_line ln cs).1,
       (tokenize_line ln cs).2) := by
  obtain ⟨hs, hi, hd, hq⟩ := op_facts hop
  have hop' : c ∈ operators := contains_mem hop
  have h2' : String.mk [c, d] ∈ twoCharOps := contains_mem_str h2
  have key : ∀ fuel, cs.length ≤ fuel →
      tokenizeLineF ln (fuel + 1) (c :: d :: cs) =
        some (⟨"OPERADOR", String.mk [c, d], ln⟩ :: (tokenize_line ln cs).1,
              (tokenize_line ln cs).2) := by
    intro fuel hf
    have hrun := tokenizeLineF_run ln cs fuel hf
    simp [tokenizeLineF, hs, hi, hd, hq, hop', h2', hrun]
    rintro rfl rfl
    exact absurd h2 (by decide)
  have hkey := key (cs.length + 1) (Nat.le_succ _)
  show (tokenizeLineF ln (cs.length + 1 + 1) (c :: d :: cs)).getD ([], []) = _
  rw [hkey]
  rfl

theorem tokenize_line_op1 (ln : Nat) (c d : Char) (cs : List Char)
    (hop : operators.contains c = true)
    (h2 : twoCharOps.contains (String.mk [c, d]) = false)
    (hcd : ¬(c = '/' ∧ d = '/')) :
    tokenize_line ln (c :: d :: cs) =
      (⟨"OPERADOR", String.mk [c], ln⟩ :: (tokenize_line ln (d :: cs)).1,
       (tokenize_line ln (d :: cs)).2) := by
  obtain ⟨hs, hi, hd, hq⟩ := op_facts hop
  have hop' : c ∈ operators := contains_mem hop
  have h2' : String.mk [c, d] ∉ twoCharOps := by simpa using h2
  have key : ∀ fuel, (d :: cs).length ≤ fuel →
      tokenizeLineF ln (fuel + 1) (c :: d :: cs) =
        some (⟨"OPERADOR", String.mk [c], ln⟩ :: (tokenize_line ln (d :: cs)).1,
              (tokenize_line ln (d :: cs)).2) := by
    intro fuel hf
    have hrun := tokenizeLineF_run ln (d :: cs) fuel hf
    simp [tokenizeLineF, hs, hi, hd, hq, hop', h2', hrun]
    rintro rfl rfl
    exact hcd ⟨rfl, rfl⟩
  have hkey := key (cs.length + 1) (by simp)
  show (tokenizeLineF ln (cs.length + 1 + 1) (c :: d :: cs)).getD ([], []) = _
  rw [hkey]
  rfl

theorem tokenize_line_unrec (ln : Nat) (c : Char) (cs : List Char)
    (h1 : pyIsSpace c = false) (h2 : isIdentStart c = false) (h3 : pyIsDigit c = false)
    (h4 : c ≠ '"') (h5 : operators.contains c = false) :
    tokenize_line ln (c :: cs) =
      ((tokenize_line ln cs).1, unrecognizedMsg ln c :: (tokenize_line ln cs).2) := by
  have h5' : c ∉ operators := by simpa using h5
  have key : ∀ fuel, cs.length ≤ fuel →
      tokenizeLineF ln (fuel + 1) (c :: cs) =
        some ((tokenize_line ln cs).1, unrecognizedMsg ln c :: (tokenize_line ln cs).2) := by
    intro fuel hf
    have hrun := tokenizeLineF_run ln cs fuel hf
    simp [tokenizeLineF, h1, h2, h3, h4, h5', hrun]
    rintro rfl
    exact absurd h5 (by decide)
  have hkey := key cs.length (le_refl _)
  show (tokenizeLineF ln (cs.length + 1) (c :: cs)).getD ([], []) = _
  rw [hkey]
  rfl

theorem tokenize_line_length (ln : Nat) (l : List Char) :
    (tokenize_line ln l).1.length = recognizedLine l := by
  have h := tokenizeLineF_length l.length l ln
  rw [tokenizeLineF_run ln l l.length (le_refl _)] at h
  rw [recognizedLine, ← h]
  rfl

theorem analyzeLines_length :
    ∀ (ls : List (List Char)) (ln : Nat),
      (analyzeLines ln ls).1.length = (ls.map recognizedLine).sum := by
  intro ls
  induction ls with
  | nil => intro ln; simp [analyzeLines]
  | cons l ls ih => intro ln; simp [analyzeLines, tokenize_line_length, ih]


/-- Claim C1, counterexample: the claim says an unterminated string aborts
scanning of the entire remaining source, so no symbol-table entries are
emitted for any text after the opening quote, including subsequent lines.
In the code the break only leaves the per-line loop: on the two-line input
holding an unterminated string on line 1 and the identifier x on line 2,
the entry for x on line 2 is still emitted (and the entry list is not
empty), refuting the claim at this input. -/
theorem claim_C1_counterexample :
    (analyze "\"unterminated\nx").2 = [unterminatedMsg 1] ∧
    (analyze "\"unterminated\nx").1 = [⟨"IDENTIFICADOR", "x", 2⟩] ∧
    (analyze "\"unterminated\nx").1 ≠ [] :=
  ⟨by decide, by decide, by decide⟩

/-- Claim C1, amended: when a line consists of an opening double quote
never closed on that line, tokenize_line records exactly one
unterminated-string error, emits no entry for the remainder of that line,
and scanning resumes with the next line (the abort is line-local, not a
stop of the whole pass). -/
theorem claim_C1_amended (ln : Nat) (cs : List Char) (ls : List (List Char))
    (h : '"' ∉ cs) :
    analyzeLines ln (('"' :: cs) :: ls) =
      ((analyzeLines (ln + 1) ls).1,
       unterminatedMsg ln :: (analyzeLines (ln + 1) ls).2) := by
  simp [analyzeLines, tokenize_line_unterminated ln cs h]

/-- Witness for the amended claim C1 at a concrete input. -/
theorem claim_C1_amended_witness :
    '"' ∉ "abc".data ∧
    analyzeLines 1 (('"' :: "abc".data) :: [['x']]) =
      ((analyzeLines 2 [['x']]).1, unterminatedMsg 1 :: (analyzeLines 2 [['x']]).2) :=
  ⟨by decide, claim_C1_amended 1 "abc".data [['x']] (by decide)⟩

/-- Claim C2: save followed by load on a fresh table is claimed to
round-trip the entry sequence, but save writes only 3 header lines while
load skips the first 8 lines, so the first five data rows are dropped: the
round-trip of a one-entry table is empty, not the original sequence. -/
theorem claim_C2_bug :
    SymbolTable.load (SymbolTable.save [⟨"IDENTIFICADOR", "x", 1⟩]) = [] ∧
    SymbolTable.load (SymbolTable.save [⟨"IDENTIFICADOR", "x", 1⟩]) ≠
      [⟨"IDENTIFICADOR", "x", 1⟩] :=
  ⟨by decide, by decide⟩

/-- Claim C3, counterexample: on input 3.1.4 the code records two errors,
not exactly one (the multiple-decimal-points error and then an
unrecognized-character error for the dot the scanner resumes on), and the
run built so far is emitted as a NUMERO_DECIMAL entry, contrary to the
claim that it is not emitted. -/
theorem claim_C3_counterexample :
    (analyze "3.1.4").2.length = 2 ∧
    ⟨"NUMERO_DECIMAL", "3.1", 1⟩ ∈ (analyze "3.1.4").1 :=
  ⟨by decide, by decide⟩

/-- Claim C3, amended: at a second dot the multiple-decimal-points error
is recorded and consumption stops there, but the run built so far IS
emitted as a DecimalNumber entry and scanning resumes AT the offending
dot, which is itself not an operator and therefore produces a second,
unrecognized-character error; on 3.1.4 the result is the two entries
NUMERO_DECIMAL 3.1 and NUMERO_ENTERO 4 and those two errors in order. -/
theorem claim_C3_amended :
    analyze "3.1.4" =
      ([⟨"NUMERO_DECIMAL", "3.1", 1⟩, ⟨"NUMERO_ENTERO", "4", 1⟩],
       [multiDotMsg 1, unrecognizedMsg 1 '.']) := by
  decide

/-- Claim C4: analyze is deterministic (two runs on the same text with a
fresh table give identical entry sequences and error lists), and the
number of symbol-table entries equals the number of non-whitespace,
non-comment tokens recognized during the scan, counted by the parallel
recursion recognizedCount. -/
theorem claim_C4 (code : String) (r1 r2 : List SymbolEntry × List String)
    (h1 : r1 = analyze code) (h2 : r2 = analyze code) :
    (r1.1 = r2.1 ∧ r1.2 = r2.2) ∧ (analyze code).1.length = recognizedCount code := by
  subst h1
  subst h2
  exact ⟨⟨rfl, rfl⟩, analyzeLines_length (splitOnNewline code.data) 1⟩

/-- Witness for claim C4 at a concrete input. -/
theorem claim_C4_witness :
    ((analyze "x = 3.5;").1 = (analyze "x = 3.5;").1 ∧
     (analyze "x = 3.5;").2 = (analyze "x = 3.5;").2) ∧
    (analyze "x = 3.5;").1.length = recognizedCount "x = 3.5;" :=
  claim_C4 "x = 3.5;" (analyze "x = 3.5;") (analyze "x = 3.5;") rfl rfl

/-- Claim C5: for a lexeme starting with an alphabetic character or
underscore the scanner consumes the maximal run of
alphanumeric-or-underscore characters and emits one entry whose kind is
PALABRA_RESERVADA exactly when the text is a member of the fixed keyword
list (exact, case-sensitive string membership) and IDENTIFICADOR
otherwise; the emitted run consists only of identifier characters and the
first unconsumed character, when there is one, is not an identifier
character (maximality). -/
theorem claim_C5 (ln : Nat) (c : Char) (cs : List Char) (h : isIdentStart c = true) :
    tokenize_line ln (c :: cs) =
      (⟨identKind (String.mk (c :: cs.takeWhile isIdentChar)),
        String.mk (c :: cs.takeWhile isIdentChar), ln⟩
          :: (tokenize_line ln (cs.dropWhile isIdentChar)).1,
       (tokenize_line ln (cs.dropWhile isIdentChar)).2) ∧
    identKind (String.mk (c :: cs.takeWhile isIdentChar)) =
      (if CustomLanguage.KEYWORDS.contains (String.mk (c :: cs.takeWhile isIdentChar))
        then "PALABRA_RESERVADA" else "IDENTIFICADOR") ∧
    (c :: cs.takeWhile isIdentChar).all isIdentChar = true ∧
    (∀ d, (cs.dropWhile isIdentChar).head? = some d → isIdentChar d = false) := by
  refine ⟨tokenize_line_ident ln c cs h, rfl, ?_, fun d hd => head_dropWhile_false _ cs d hd⟩
  simp [List.all_cons, isIdentStart_isIdentChar h, takeWhile_all]

/-- Witness for claim C5 at a concrete input (the keyword if). -/
theorem claim_C5_witness :
    isIdentStart 'i' = true ∧
    (tokenize_line 1 ('i' :: ['f']) =
      (⟨identKind (String.mk ('i' :: List.takeWhile isIdentChar ['f'])),
        String.mk ('i' :: List.takeWhile isIdentChar ['f']), 1⟩
          :: (tokenize_line 1 (List.dropWhile isIdentChar ['f'])).1,
       (tokenize_line 1 (List.dropWhile isIdentChar ['f'])).2) ∧
     identKind (String.mk ('i' :: List.takeWhile isIdentChar ['f'])) =
       (if CustomLanguage.KEYWORDS.contains (String.mk ('i' :: List.takeWhile isIdentChar ['f']))
         then "PALABRA_RESERVADA" else "IDENTIFICADOR") ∧
     ('i' :: List.takeWhile isIdentChar ['f']).all isIdentChar = true ∧
     (∀ d, (List.dropWhile isIdentChar ['f']).head? = some d → isIdentChar d = false)) :=
  ⟨by decide, claim_C5 1 'i' ['f'] (by decide)⟩

/-- Claim C6: at an operator character the scanner first tries the
two-character operators; if the next character completes one, that
two-character operator is emitted and the cursor advances by two,
otherwise the single-character operator is emitted and the cursor advances
by one; in particular the operators in a <= b && c tokenize as the
two-character <= and &&. -/
theorem claim_C6 (ln : Nat) (c d : Char) (cs : List Char)
    (hop : operators.contains c = true) :
    (twoCharOps.contains (String.mk [c, d]) = true →
      tokenize_line ln (c :: d :: cs) =
        (⟨"OPERADOR", String.mk [c, d], ln⟩ :: (tokenize_line ln cs).1,
         (tokenize_line ln cs).2)) ∧
    (twoCharOps.contains (String.mk [c, d]) = false → ¬(c = '/' ∧ d = '/') →
      tokenize_line ln (c :: d :: cs) =
        (⟨"OPERADOR", String.mk [c], ln⟩ :: (tokenize_line ln (d :: cs)).1,
         (tokenize_line ln (d :: cs)).2)) ∧
    analyze "a <= b && c" =
      ([⟨"IDENTIFICADOR", "a", 1⟩, ⟨"OPERADOR", "<=", 1⟩, ⟨"IDENTIFICADOR", "b", 1⟩,
        ⟨"OPERADOR", "&&", 1⟩, ⟨"IDENTIFICADOR", "c", 1⟩], []) :=
  ⟨fun h2 => tokenize_line_op2 ln c d cs hop h2,
   fun h2 hcd => tokenize_line_op1 ln c d cs hop h2 hcd,
   by decide⟩

/-- Witness for claim C6 at a concrete input. -/
theorem claim_C6_witness :
    operators.contains '<' = true ∧
    ((twoCharOps.contains (String.mk ['<', '=']) = true →
      tokenize_line 1 ('<' :: '=' :: []) =
        (⟨"OPERADOR", String.mk ['<', '='], 1⟩ :: (tokenize_line 1 []).1,
         (tokenize_line 1 []).2)) ∧
     (twoCharOps.contains (String.mk ['<', '=']) = false → ¬('<' = '/' ∧ '=' = '/') →
      tokenize_line 1 ('<' :: '=' :: []) =
        (⟨"OPERADOR", String.mk ['<'], 1⟩ :: (tokenize_line 1 ('=' :: [])).1,
         (tokenize_line 1 ('=' :: [])).2)) ∧
     analyze "a <= b && c" =
       ([⟨"IDENTIFICADOR", "a", 1⟩, ⟨"OPERADOR", "<=", 1⟩, ⟨"IDENTIFICADOR", "b", 1⟩,
         ⟨"OPERADOR", "&&", 1⟩, ⟨"IDENTIFICADOR", "c", 1⟩], [])) :=
  ⟨by decide, claim_C6 1 '<' '=' [] (by decide)⟩

/-- Claim C7: on the input x = 3.5; analyze produces exactly the entries
IDENTIFICADOR x, OPERADOR =, NUMERO_DECIMAL 3.5 and OPERADOR ;, all on
line 1, and an empty error list. -/
theorem claim_C7 :
    analyze "x = 3.5;" =
      ([⟨"IDENTIFICADOR", "x", 1⟩, ⟨"OPERADOR", "=", 1⟩,
        ⟨"NUMERO_DECIMAL", "3.5", 1⟩, ⟨"OPERADOR", ";", 1⟩], []) := by
  decide

/-- Claim C8: at a character that is not whitespace, not an identifier
start, not a digit, not a double quote, not the start of a comment and not
an operator, the scanner records one unrecognized-character error naming
the character and its line, advances by one character and continues; on
the input x @ y exactly one error is recorded and the identifiers before
and after the @ are both still recorded. -/
theorem claim_C8 (ln : Nat) (c : Char) (cs : List Char)
    (h1 : pyIsSpace c = false) (h2 : isIdentStart c = false) (h3 : pyIsDigit c = false)
    (h4 : c ≠ '"') (h5 : operators.contains c = false) :
    tokenize_line ln (c :: cs) =
      ((tokenize_line ln cs).1, unrecognizedMsg ln c :: (tokenize_line ln cs).2) ∧
    analyze "x @ y" =
      ([⟨"IDENTIFICADOR", "x", 1⟩, ⟨"IDENTIFICADOR", "y", 1⟩], [unrecognizedMsg 1 '@']) :=
  ⟨tokenize_line_unrec ln c cs h1 h2 h3 h4 h5, by decide⟩

/-- Witness for claim C8 at a concrete input. -/
theorem claim_C8_witness :
    (pyIsSpace '@' = false ∧ isIdentStart '@' = false ∧ pyIsDigit '@' = false ∧
     '@' ≠ '"' ∧ operators.contains '@' = false) ∧
    (tokenize_line 7 ('@' :: []) =
      ((tokenize_line 7 []).1, unrecognizedMsg 7 '@' :: (tokenize_line 7 []).2) ∧
     analyze "x @ y" =
       ([⟨"IDENTIFICADOR", "x", 1⟩, ⟨"IDENTIFICADOR", "y", 1⟩], [unrecognizedMsg 1 '@'])) :=
  ⟨⟨by decide, by decide, by decide, by decide, by decide⟩,
   claim_C8 7 '@' [] (by decide) (by decide) (by decide) (by decide) (by decide)⟩

/-- Claim C9: clear empties the table and persists the header-only file;
loading that file into a fresh table yields zero entries (the loader skips
the first 8 lines of a 3-line file and parses nothing). -/
theorem claim_C9 (syms : List SymbolEntry) :
    SymbolTable.load (SymbolTable.save (SymbolTable.clear syms)) = [] := rfl

/-- Claim C10: analyze terminates on every input: every iteration of the
per-line loop consumes at least one character, so fuel equal to the line
length always suffices and any larger fuel gives the same completed
result, which is the value of the total function tokenize_line; hence the
scan of every line, and with it the whole pass, runs to completion. -/
theorem claim_C10 (ln : Nat) (l : List Char) (fuel : Nat) (h : l.length ≤ fuel) :
    tokenizeLineF ln fuel l = some (tokenize_line ln l) :=
  tokenizeLineF_run ln l fuel h

/-- Witness for claim C10 at a concrete input. -/
theorem claim_C10_witness :
    "x = 3.5;".data.length ≤ 8 ∧
    tokenizeLineF 1 8 "x = 3.5;".data = some (tokenize_line 1 "x = 3.5;".data) :=
  ⟨by decide, claim_C10 1 "x = 3.5;".data 8 (by decide)⟩
